import Mathlib

/-!
Verification of the turn loop and text-extraction heuristics of
`zork_ai_player.py` (class `ZorkPlayer`).

Strings are modelled as `List Char` (`PyStr`), with Python's string
primitives (`strip`, `lower`, `upper`, `split`, `in`, slicing) embedded as
executable functions over character lists.  The embedding is scoped to
ASCII text, which is all the game protocol produces.
-/

/-- Python strings, modelled as lists of characters. -/
abbrev PyStr := List Char

/-- Turn a Lean string literal into the `PyStr` model. -/
def str (s : String) : PyStr := s.data

/-- Python's notion of whitespace for `str.strip()` / `str.split()`
(ASCII): space, tab, newline, carriage return, vertical tab, form feed. -/
def isPySpace (c : Char) : Bool :=
  c = ' ' || c = '\t' || c = '\n' || c = '\r' || c = '\x0b' || c = '\x0c'

/-- `str.strip()`: drop leading and trailing whitespace. -/
def pyStrip (s : PyStr) : PyStr :=
  ((s.dropWhile isPySpace).reverse.dropWhile isPySpace).reverse

/-- ASCII lower-casing of one character, as Python's `str.lower()` acts on
ASCII text. -/
def pyLowerChar : Char → Char
  | 'A' => 'a' | 'B' => 'b' | 'C' => 'c' | 'D' => 'd' | 'E' => 'e'
  | 'F' => 'f' | 'G' => 'g' | 'H' => 'h' | 'I' => 'i' | 'J' => 'j'
  | 'K' => 'k' | 'L' => 'l' | 'M' => 'm' | 'N' => 'n' | 'O' => 'o'
  | 'P' => 'p' | 'Q' => 'q' | 'R' => 'r' | 'S' => 's' | 'T' => 't'
  | 'U' => 'u' | 'V' => 'v' | 'W' => 'w' | 'X' => 'x' | 'Y' => 'y'
  | 'Z' => 'z' | c => c

/-- ASCII upper-casing of one character, as Python's `str.upper()` acts on
ASCII text. -/
def pyUpperChar : Char → Char
  | 'a' => 'A' | 'b' => 'B' | 'c' => 'C' | 'd' => 'D' | 'e' => 'E'
  | 'f' => 'F' | 'g' => 'G' | 'h' => 'H' | 'i' => 'I' | 'j' => 'J'
  | 'k' => 'K' | 'l' => 'L' | 'm' => 'M' | 'n' => 'N' | 'o' => 'O'
  | 'p' => 'P' | 'q' => 'Q' | 'r' => 'R' | 's' => 'S' | 't' => 'T'
  | 'u' => 'U' | 'v' => 'V' | 'w' => 'W' | 'x' => 'X' | 'y' => 'Y'
  | 'z' => 'Z' | c => c

/-- `str.lower()`. -/
def pyLower (s : PyStr) : PyStr := s.map pyLowerChar

/-- `str.upper()`. -/
def pyUpper (s : PyStr) : PyStr := s.map pyUpperChar

/-- ASCII lower-case letter. -/
def isAsciiLower (c : Char) : Bool := 'a' ≤ c && c ≤ 'z'

/-- ASCII upper-case letter. -/
def isAsciiUpper (c : Char) : Bool := 'A' ≤ c && c ≤ 'Z'

/-- Python's `str.isupper()` on ASCII text: at least one cased character and
no lower-case cased character. -/
def pyIsUpper (s : PyStr) : Bool :=
  s.any (fun c => isAsciiLower c || isAsciiUpper c) && s.all (fun c => !isAsciiLower c)

/-- Whether `needle` is a prefix of `hay` (character-exact). -/
def listStartsWith : PyStr → PyStr → Bool
  | [], _ => true
  | _ :: _, [] => false
  | a :: as, b :: bs => a = b && listStartsWith as bs

/-- Python's substring test `needle in hay`. -/
def containsSub (needle : PyStr) : PyStr → Bool
  | [] => listStartsWith needle []
  | c :: t => listStartsWith needle (c :: t) || containsSub needle t

/-- `hay.split(sep)[0]` for a non-empty `sep`: everything before the first
occurrence of `sep` (the whole string when `sep` does not occur). -/
def beforeSub (sep : PyStr) : PyStr → PyStr
  | [] => []
  | c :: rest => if listStartsWith sep (c :: rest) then [] else c :: beforeSub sep rest

/-- Python's `text.split('\n')`. -/
def splitOnNl : PyStr → List PyStr
  | [] => [[]]
  | c :: rest =>
    match splitOnNl rest with
    | [] => [[]]
    | l :: ls => if c = '\n' then [] :: l :: ls else (c :: l) :: ls

/-- Python's no-argument `str.split()`: whitespace-separated words, runs of
whitespace collapsed, no empty words. -/
def pySplitWS : PyStr → List PyStr
  | [] => []
  | c :: rest =>
    if isPySpace c then pySplitWS rest
    else
      match rest with
      | [] => [[c]]
      | r :: _ =>
        if isPySpace r then [c] :: pySplitWS rest
        else
          match pySplitWS rest with
          | [] => [[c]]
          | w :: ws => (c :: w) :: ws

/-- Python's slice `l[-n:]`: the last `n` elements (the whole list when it is
shorter). -/
def lastN (n : Nat) (l : List α) : List α := l.drop (l.length - n)

/-- Python dict assignment `d[k] = v` on an insertion-ordered association
list: replace in place when the key exists, append otherwise. -/
def dictSet {V : Type} : List (PyStr × V) → PyStr → V → List (PyStr × V)
  | [], k, v => [(k, v)]
  | (k0, v0) :: rest, k, v =>
    if k0 = k then (k, v) :: rest else (k0, v0) :: dictSet rest k v

/-- Python dict lookup `d[k]`. -/
def dictLookup {V : Type} : List (PyStr × V) → PyStr → Option V
  | [], _ => none
  | (k0, v0) :: rest, k => if k0 = k then some v0 else dictLookup rest k

/-- `concatMap f l`: the concatenation of `f` over `l` (the accumulation of
per-line `append` calls in the Python loops). -/
def concatMap (f : α → List β) : List α → List β
  | [] => []
  | a :: as => f a ++ concatMap f as

/-- Python's `set.add`: a set is modelled as a duplicate-free list, and
adding a member already present changes nothing. -/
def pySetAdd (l : List PyStr) (x : PyStr) : List PyStr :=
  if x ∈ l then l else l ++ [x]

/-! ## The Knowledge Store (the learning/map attributes of `ZorkPlayer`) -/

/-- The mutable learning/map state of `ZorkPlayer`.  Python dicts are
insertion-ordered association lists; `visited_locations` is a Python `set`,
modelled as a duplicate-free list maintained by `pySetAdd`. -/
structure Store where
  learned_facts : List PyStr
  location_insights : List (PyStr × List PyStr)
  item_insights : List (PyStr × PyStr)
  puzzle_solutions : List (PyStr × PyStr)
  turn_count : Nat
  location_map : List (PyStr × List PyStr)
  location_names : List (PyStr × PyStr)
  visited_locations : List PyStr
  current_location : Option PyStr
deriving DecidableEq

/-- The state of a freshly constructed `ZorkPlayer`. -/
def emptyStore : Store :=
  { learned_facts := [], location_insights := [], item_insights := [],
    puzzle_solutions := [], turn_count := 0, location_map := [],
    location_names := [], visited_locations := [], current_location := none }

/-! ## World-state extraction heuristics -/

def scoreMarker : PyStr := str "Score:"

def movesMarker : PyStr := str "Moves:"

/-- The line scan of `_extract_location`: for each line (stripped), an
entirely upper-case line of at most 3 words is an echoed command whose next
line carries the location (before `Score:`, or whole when non-empty without
`Moves:`); otherwise a line containing `You are in`/`You are at` is the
location; otherwise continue. -/
def extractLocationLines : List PyStr → Option PyStr
  | [] => none
  | raw :: rest =>
    let line := pyStrip raw
    if pyIsUpper line && decide ((pySplitWS line).length ≤ 3) then
      match rest with
      | [] => extractLocationLines rest
      | next :: _ =>
        let next_line := pyStrip next
        if containsSub scoreMarker next_line then
          some (pyStrip (beforeSub scoreMarker next_line))
        else if !next_line.isEmpty && !containsSub movesMarker next_line then
          some next_line
        else extractLocationLines rest
    else if containsSub (str "You are in") line || containsSub (str "You are at") line then
      some line
    else extractLocationLines rest

/-- `_extract_location`: extract the current location from raw game output. -/
def _extract_location (game_output : PyStr) : Option PyStr :=
  extractLocationLines (splitOnNl game_output)

def locationKeywords : List PyStr :=
  [str "door", str "passage", str "stair", str "ladder", str "trap",
   str "treasure", str "monster"]

/-- `_summarize_location`: the (stripped) lines mentioning a location
keyword, capped at 3. -/
def _summarize_location (game_output : PyStr) : List PyStr :=
  (((splitOnNl game_output).map pyStrip).filter
    (fun line => locationKeywords.any (fun k => containsSub k (pyLower line)))).take 3

/-- The inner word loop of `_extract_items`: each word whose lower-casing is
`take`/`find`/`see` contributes the following word. -/
def itemsFromWords : List PyStr → List PyStr
  | [] => []
  | [_] => []
  | w :: next :: rest =>
    if pyLower w ∈ [str "take", str "find", str "see"] then
      next :: itemsFromWords (next :: rest)
    else itemsFromWords (next :: rest)

/-- `_extract_items`: item tokens after `you take`/`you find`/`you see`. -/
def _extract_items (game_output : PyStr) : List PyStr :=
  concatMap (fun rawLine =>
      let line := pyStrip rawLine
      if [str "you take", str "you find", str "you see"].any
          (fun k => containsSub k (pyLower line)) then
        itemsFromWords (pySplitWS line)
      else [])
    (splitOnNl game_output)

/-- `_summarize_item`: the first line mentioning the item with length over
10, stripped; otherwise a fixed fallback. -/
def _summarize_item (game_output item : PyStr) : PyStr :=
  match (splitOnNl game_output).find?
      (fun line => containsSub (pyLower item) (pyLower line) && decide (line.length > 10)) with
  | some line => pyStrip line
  | none => str "Found " ++ item

/-- `_identify_puzzle`. -/
def _identify_puzzle (game_output : PyStr) : Option PyStr :=
  if containsSub (str "You can't") game_output &&
      [str "door", str "gate", str "passage", str "open"].any
        (fun k => containsSub k (pyLower game_output)) then
    some (str "door_puzzle")
  else none

/-- `_extract_solution_hint`. -/
def _extract_solution_hint (game_output : PyStr) : PyStr :=
  match (splitOnNl game_output).find?
      (fun line => [str "key", str "lever", str "button", str "switch",
          str "password"].any (fun k => containsSub k (pyLower line))) with
  | some line => pyStrip line
  | none => str "Need to find solution"

/-- `_extract_fact`: a concise fact about what happened, or `none`. -/
def _extract_fact (game_output command response : PyStr) : Option PyStr :=
  if containsSub (str "You can't") response then
    some (str "Cannot " ++ pyLower command ++ str " - " ++ response.take 50)
  else if containsSub (str "You take") response then
    some (str "Successfully took item with " ++ command)
  else if containsSub (str "You open") response then
    some (str "Successfully opened with " ++ command)
  else none

/-- The direction list of `_extract_connections`, in source order. -/
def tenDirections : List PyStr :=
  [str "north", str "south", str "east", str "west", str "up", str "down",
   str "northeast", str "northwest", str "southeast", str "southwest"]

def passageKeywords : List PyStr :=
  [str "door", str "passage", str "staircase", str "ladder", str "tunnel"]

/-- The branch structure of the `_extract_connections` loop on one already
stripped-and-lower-cased line: on a line containing a direction word, every
direction word it contains; otherwise on a
door/passage/staircase/ladder/tunnel line, the first direction of the
single-letter heuristic chain. -/
def lineConnectionsOf (line : PyStr) : List PyStr :=
  if tenDirections.any (fun d => containsSub d line) then
    tenDirections.filter (fun d => containsSub d line)
  else if passageKeywords.any (fun k => containsSub k line) then
    if containsSub (str "north") line || containsSub (str "n") line then [str "north"]
    else if containsSub (str "south") line || containsSub (str "s") line then [str "south"]
    else if containsSub (str "east") line || containsSub (str "e") line then [str "east"]
    else if containsSub (str "west") line || containsSub (str "w") line then [str "west"]
    else if containsSub (str "up") line || containsSub (str "u") line then [str "up"]
    else if containsSub (str "down") line || containsSub (str "d") line then [str "down"]
    else []
  else []

/-- The per-line contribution of the `_extract_connections` loop
(`line = line.strip().lower()` and then the branch chain). -/
def lineConnections (rawLine : PyStr) : List PyStr :=
  lineConnectionsOf (pyLower (pyStrip rawLine))

/-- `_extract_connections`: the accumulated per-line contributions with
duplicates removed (Python's `list(set(connections))`; its order is
unspecified, and only order-independent properties are proved about it). -/
def _extract_connections (game_output : PyStr) : List PyStr :=
  (concatMap lineConnections (splitOnNl game_output)).dedup

/-- `_extract_short_name`. -/
def _extract_short_name (location : PyStr) : PyStr :=
  if location.length ≤ 25 then location
  else if (pySplitWS location).length > 3 then
    List.intercalate (str " ") ((pySplitWS location).take 3)
  else if location.length > 25 then location.take 25 ++ str "..."
  else location

/-- `_update_location_map`'s connection update: record connections only when
the extracted list is non-empty. -/
def updateMapConnections (m : List (PyStr × List PyStr)) (game_output location : PyStr) :
    List (PyStr × List PyStr) :=
  let connections := _extract_connections game_output
  if connections.isEmpty then m else dictSet m location connections

/-- The location-recording block of `extract_learning` (together with
`_update_location_map`): set the current location, add it to the visited
set, store its summary, short name and connections. -/
def recordLocation (s : Store) (game_output location : PyStr) : Store :=
  { s with
    current_location := some location,
    visited_locations := pySetAdd s.visited_locations location,
    location_insights := dictSet s.location_insights location (_summarize_location game_output),
    location_names := dictSet s.location_names location (_extract_short_name location),
    location_map := updateMapConnections s.location_map game_output location }

def important_patterns : List PyStr :=
  [str "You can't", str "You need", str "It's locked", str "The door is",
   str "You see", str "There is", str "You find", str "You take",
   str "You drop", str "You open", str "You close", str "You read",
   str "You examine", str "You attack", str "You die"]

/-- The location block of `extract_learning` (in the source, both arms of
the `You are in`/`You are at` branch perform this same recording; a falsy —
empty — extracted location is not recorded, as under Python's
`if location:`). -/
def recordLocationStage (s : Store) (game_output : PyStr) : Store :=
  match _extract_location game_output with
  | some location =>
    if location.isEmpty then s else recordLocation s game_output location
  | none => s

/-- The item block of `extract_learning`. -/
def recordItemsStage (s : Store) (game_output : PyStr) : Store :=
  if [str "You take", str "You find", str "You see"].any
      (fun p => containsSub p game_output) then
    (_extract_items game_output).foldl
      (fun st item =>
        { st with item_insights := dictSet st.item_insights item (_summarize_item game_output item) })
      s
  else s

/-- The puzzle block of `extract_learning`. -/
def recordPuzzleStage (s : Store) (game_output response : PyStr) : Store :=
  if containsSub (str "You can't") response && containsSub (str "You need") game_output then
    match _identify_puzzle game_output with
    | some puzzle =>
      { s with puzzle_solutions := dictSet s.puzzle_solutions puzzle (_extract_solution_hint game_output) }
    | none => s
  else s

/-- The fact block of `extract_learning` (`if fact:` is Python truthiness:
an empty fact is not appended). -/
def recordFactStage (s : Store) (game_output command response : PyStr) : Store :=
  if important_patterns.any (fun p => containsSub p game_output) then
    match _extract_fact game_output command response with
    | some fact =>
      if fact.isEmpty then s
      else { s with learned_facts := s.learned_facts ++ [fact] }
    | none => s
  else s

/-- `extract_learning`: merge one turn's extraction into the store, running
the four source blocks in order. -/
def extract_learning (s : Store) (game_output command response : PyStr) : Store :=
  recordFactStage
    (recordPuzzleStage (recordItemsStage (recordLocationStage s game_output) game_output)
      game_output response)
    game_output command response

/-! ## Persistence (`save_learning` / `load_learning`) -/

/-- The record `save_learning` serializes to the learning file (JSON
serialization of these collections is the identity at this level of
modelling; `visited_locations` is written as `list(...)` of the set). -/
structure LearningData where
  learned_facts : List PyStr
  location_insights : List (PyStr × List PyStr)
  item_insights : List (PyStr × PyStr)
  puzzle_solutions : List (PyStr × PyStr)
  turn_count : Nat
  location_map : List (PyStr × List PyStr)
  location_names : List (PyStr × PyStr)
  visited_locations : List PyStr
  current_location : Option PyStr

/-- `save_learning`: the snapshot written to disk.  The fact log is capped
to its last 20 entries (`self.learned_facts[-20:]`); `list(set)` enumerates
the visited set, which the model already keeps as a duplicate-free list. -/
def save_learning_data (s : Store) : LearningData :=
  { learned_facts := lastN 20 s.learned_facts,
    location_insights := s.location_insights,
    item_insights := s.item_insights,
    puzzle_solutions := s.puzzle_solutions,
    turn_count := s.turn_count,
    location_map := s.location_map,
    location_names := s.location_names,
    visited_locations := s.visited_locations,
    current_location := s.current_location }

/-- `load_learning` applied to a present, well-formed snapshot: every
collection is loaded into the store (`set(...)` rebuilds the visited set
from the stored enumeration, the identity in the list-as-set model);
`turn_count` is saved but never restored by the source, so the target store
keeps its own. -/
def load_learning (d : LearningData) (s : Store) : Store :=
  { s with
    learned_facts := d.learned_facts,
    location_insights := d.location_insights,
    item_insights := d.item_insights,
    puzzle_solutions := d.puzzle_solutions,
    location_map := d.location_map,
    location_names := d.location_names,
    visited_locations := d.visited_locations,
    current_location := d.current_location }

/-! ## The turn loop (`play`) -/

/-- `command.upper() in ['QUIT', 'Q']`. -/
def isQuitCommand (command : PyStr) : Bool :=
  decide (pyUpper command ∈ [str "QUIT", str "Q"])

/-- The death/ghost signature test on the most recent game output. -/
def isDeadOutput (game_output : PyStr) : Bool :=
  containsSub (str "passes through") (pyLower game_output) ||
    containsSub (str "ghost") (pyLower game_output)

/-- What one turn of `play` does with the agent's command before any
transport call: either the loop `break`s (an honored quit: nothing is sent),
or a command is sent. -/
inductive TurnAction where
  | endSession : TurnAction
  | send : PyStr → TurnAction
deriving DecidableEq

/-- The command a `TurnAction` forwards to the game process, if any. -/
def sentCommand : TurnAction → Option PyStr
  | .endSession => none
  | .send c => some c

/-- The quit-handling block of `play` (lines 869-885): an honored QUIT/Q
breaks the loop before any send; a suppressed one is replaced by LOOK; any
other command is sent unchanged. -/
def quitPolicy (command game_output : PyStr) (turn max_turns : Nat) : TurnAction :=
  if isQuitCommand command then
    if decide (turn ≥ max_turns) || isDeadOutput game_output then .endSession
    else .send (str "LOOK")
  else .send command

def placeholderResponse : PyStr := str "The game did not respond."

/-- The transport/response part of one turn of `play`, after quit handling:
send the command (`transport turn command` is the raw response), answer a
RESTART confirmation, replace an empty/whitespace-only response by the fixed
placeholder, and on an autosave turn adopt the fresh post-save state when it
is non-empty (`save_game` returns `self.game_process.before.strip()`).  The
result is the `game_output` carried into the next turn. -/
def runTurnExchange (transport : Nat → PyStr → PyStr) (saveGame : Nat → PyStr)
    (autoSave : Bool) (turn : Nat) (command : PyStr) : PyStr :=
  let go1 := transport turn command
  let go2 :=
    if pyUpper command = str "RESTART" &&
        containsSub (str "Are you sure you want to restart?") go1 then
      transport turn (str "yes")
    else go1
  let go3 := if (pyStrip go2).isEmpty then placeholderResponse else go2
  if autoSave && decide (turn % 10 = 0) then
    let new_state := pyStrip (saveGame turn)
    if new_state.isEmpty then go3 else new_state
  else go3

/-- The `for turn in range(1, max_turns + 1)` loop of `play`, collecting the
`game_output` value handed to `get_ai_command` on each executed turn.
`turnsLeft` counts the remaining loop iterations; `agent`, `transport` and
`saveGame` are oracles for the AI backend, the game process and
`save_game`'s refreshed state. -/
def playLoop (agent : Nat → PyStr → PyStr) (transport : Nat → PyStr → PyStr)
    (saveGame : Nat → PyStr) (autoSave : Bool) (max_turns : Nat) :
    Nat → Nat → PyStr → List PyStr
  | _, 0, _ => []
  | turn, turnsLeft + 1, game_output =>
    match quitPolicy (agent turn game_output) game_output turn max_turns with
    | .endSession => [game_output]
    | .send c =>
      game_output ::
        playLoop agent transport saveGame autoSave max_turns (turn + 1) turnsLeft
          (runTurnExchange transport saveGame autoSave turn c)

/-- The sequence of game-output strings handed to `get_ai_command` over a
session of `play` started on `initial` output. -/
def gatewayInputs (agent : Nat → PyStr → PyStr) (transport : Nat → PyStr → PyStr)
    (saveGame : Nat → PyStr) (autoSave : Bool) (max_turns : Nat)
    (initial : PyStr) : List PyStr :=
  playLoop agent transport saveGame autoSave max_turns 1 max_turns initial

/-! ## The Ollama provider (`_get_ollama_command`) -/

/-- One conversation-history entry. -/
structure Msg where
  role : PyStr
  content : PyStr
deriving DecidableEq

/-- The outcome of the `requests.post` generation call: a JSON body whose
`response` field may be absent (`result.get("response", "")`), or a
`requests.exceptions.RequestException` (connection error, timeout, or a
non-2xx status raised by `raise_for_status`). -/
inductive OllamaOutcome where
  | success (responseField : Option PyStr)
  | requestError
deriving DecidableEq

/-- `_get_ollama_command`: the returned command and the updated conversation
history. -/
def _get_ollama_command (history : List Msg) (outcome : OllamaOutcome) :
    PyStr × List Msg :=
  match outcome with
  | .success rf =>
    let command := pyStrip (rf.getD (str ""))
    (command, history ++ [{ role := str "assistant", content := command }])
  | .requestError => (str "LOOK", history)

/-- Claim-side definition for C10, written from the claim's own words (to
be compared with `lineConnections`): the first of
north/south/east/west/up/down whose single-letter abbreviation occurs
anywhere in the lower-cased line. -/
def firstAbbrevDir (line : PyStr) : Option PyStr :=
  if containsSub (str "n") line then some (str "north")
  else if containsSub (str "s") line then some (str "south")
  else if containsSub (str "e") line then some (str "east")
  else if containsSub (str "w") line then some (str "west")
  else if containsSub (str "u") line then some (str "up")
  else if containsSub (str "d") line then some (str "down")
  else none

/-! ## Basic lemmas about the string primitives -/

lemma listStartsWith_iff (n h : PyStr) :
    listStartsWith n h = true ↔ ∃ t, h = n ++ t := by
  induction n generalizing h with
  | nil => simp [listStartsWith]
  | cons a as ih =>
    cases h with
    | nil => simp [listStartsWith]
    | cons b bs =>
      simp only [listStartsWith, Bool.and_eq_true, decide_eq_true_eq, ih,
        List.cons_append, List.cons.injEq]
      constructor
      · rintro ⟨rfl, t, rfl⟩; exact ⟨t, rfl, rfl⟩
      · rintro ⟨t, rfl, rfl⟩; exact ⟨rfl, t, rfl⟩

lemma containsSub_iff (n h : PyStr) :
    containsSub n h = true ↔ ∃ p t, h = p ++ n ++ t := by
  induction h with
  | nil =>
    simp only [containsSub, listStartsWith_iff]
    constructor
    · rintro ⟨t, ht⟩
      exact ⟨[], t, by simpa using ht⟩
    · rintro ⟨p, t, ht⟩
      rw [List.nil_eq, List.append_assoc, List.append_eq_nil] at ht
      exact ⟨t, by simp [ht.1, (List.append_eq_nil.1 ht.2).1, (List.append_eq_nil.1 ht.2).2]⟩
  | cons c t ih =>
    simp only [containsSub, Bool.or_eq_true, listStartsWith_iff, ih]
    constructor
    · rintro (⟨u, hu⟩ | ⟨p, u, rfl⟩)
      · exact ⟨[], u, by simpa using hu⟩
      · exact ⟨c :: p, u, rfl⟩
    · rintro ⟨p, u, hu⟩
      cases p with
      | nil => exact Or.inl ⟨u, by simpa using hu⟩
      | cons x xs =>
        rw [List.cons_append, List.cons_append] at hu
        injection hu with h1 h2
        exact Or.inr ⟨xs, u, by simp [h2]⟩

lemma containsSub_trans {a b c : PyStr} (h1 : containsSub a b = true)
    (h2 : containsSub b c = true) : containsSub a c = true := by
  rw [containsSub_iff] at h1 h2 ⊢
  obtain ⟨p1, t1, rfl⟩ := h1
  obtain ⟨p2, t2, rfl⟩ := h2
  exact ⟨p2 ++ p1, t1 ++ t2, by simp [List.append_assoc]⟩

lemma dropWhile_head_false {α : Type} {p : α → Bool} {l rest : List α} {b : α}
    (h : l.dropWhile p = b :: rest) : p b = false := by
  induction l with
  | nil => simp [List.dropWhile] at h
  | cons a t ih =>
    by_cases hpa : p a = true
    · rw [List.dropWhile_cons, if_pos hpa] at h
      exact ih h
    · rw [List.dropWhile_cons, if_neg hpa] at h
      injection h with h1 _
      subst h1
      simpa using hpa

lemma dropWhile_idem {α : Type} (p : α → Bool) (l : List α) :
    (l.dropWhile p).dropWhile p = l.dropWhile p := by
  induction l with
  | nil => rfl
  | cons a t ih =>
    by_cases hpa : p a = true
    · simp [List.dropWhile_cons, hpa, ih]
    · simp [List.dropWhile_cons, hpa]

lemma dropWhile_eq_self_of_head {α : Type} {p : α → Bool} {l : List α}
    (h : ∀ b rest, l = b :: rest → p b = false) : l.dropWhile p = l := by
  cases l with
  | nil => rfl
  | cons b rest => rw [List.dropWhile_cons, if_neg (by simp [h b rest rfl])]

lemma pyStrip_idem (l : PyStr) : pyStrip (pyStrip l) = pyStrip l := by
  unfold pyStrip
  have h1 : ((l.dropWhile isPySpace).reverse.dropWhile isPySpace).reverse.dropWhile isPySpace
      = ((l.dropWhile isPySpace).reverse.dropWhile isPySpace).reverse := by
    apply dropWhile_eq_self_of_head
    intro b bs hb
    have hdec := List.takeWhile_append_dropWhile (p := isPySpace)
      (l := (l.dropWhile isPySpace).reverse)
    have h2 := congrArg List.reverse hdec
    rw [List.reverse_append, List.reverse_reverse] at h2
    rw [hb] at h2
    exact dropWhile_head_false h2.symm
  rw [h1, List.reverse_reverse, dropWhile_idem]

lemma containsSub_dropWhile {p : Char → Bool} {n l : PyStr} (hne : n ≠ [])
    (hns : ∀ c ∈ n, p c = false) (h : containsSub n l = true) :
    containsSub n (l.dropWhile p) = true := by
  induction l with
  | nil => simpa using h
  | cons a t ih =>
    by_cases hpa : p a = true
    · rw [List.dropWhile_cons, if_pos hpa]
      apply ih
      have h' : listStartsWith n (a :: t) = true ∨ containsSub n t = true := by
        simpa [containsSub, Bool.or_eq_true] using h
      rcases h' with hs | hc
      · obtain ⟨u, hu⟩ := (listStartsWith_iff _ _).1 hs
        cases n with
        | nil => exact absurd rfl hne
        | cons n0 ns =>
          rw [List.cons_append] at hu
          injection hu with h1 _
          rw [h1] at hpa
          exact absurd hpa (by simp [hns n0 (by simp)])
      · exact hc
    · rwa [List.dropWhile_cons, if_neg hpa]

lemma containsSub_reverse {n l : PyStr} :
    containsSub n.reverse l.reverse = true ↔ containsSub n l = true := by
  rw [containsSub_iff, containsSub_iff]
  constructor
  · rintro ⟨p, t, hl⟩
    refine ⟨t.reverse, p.reverse, ?_⟩
    have h2 := congrArg List.reverse hl
    simpa [List.reverse_append, List.append_assoc] using h2
  · rintro ⟨p, t, rfl⟩
    exact ⟨t.reverse, p.reverse, by simp [List.reverse_append, List.append_assoc]⟩

lemma containsSub_pyStrip {n l : PyStr} (hne : n ≠ [])
    (hns : ∀ c ∈ n, isPySpace c = false) (h : containsSub n l = true) :
    containsSub n (pyStrip l) = true := by
  unfold pyStrip
  have h1 := containsSub_dropWhile hne hns h
  have h2 : containsSub n.reverse (l.dropWhile isPySpace).reverse = true :=
    containsSub_reverse.2 h1
  have h3 := containsSub_dropWhile (p := isPySpace) (n := n.reverse)
    (l := (l.dropWhile isPySpace).reverse) (by simpa using hne)
    (fun c hc => hns c (List.mem_reverse.1 hc)) h2
  have h4 := containsSub_reverse
    (n := n) (l := ((l.dropWhile isPySpace).reverse.dropWhile isPySpace).reverse)
  exact h4.1 (by simpa using h3)

lemma isPySpace_pyLowerChar (c : Char) : isPySpace (pyLowerChar c) = isPySpace c := by
  unfold pyLowerChar
  split <;> first | decide | rfl

lemma dropWhile_map_comm {f : Char → Char} {p : Char → Bool}
    (hf : ∀ c, p (f c) = p c) (l : PyStr) :
    (l.map f).dropWhile p = (l.dropWhile p).map f := by
  induction l with
  | nil => rfl
  | cons a t ih =>
    simp only [List.map_cons, List.dropWhile_cons, hf a]
    by_cases hpa : p a = true
    · simp [hpa, ih]
    · simp [hpa]

lemma pyLower_pyStrip (l : PyStr) : pyLower (pyStrip l) = pyStrip (pyLower l) := by
  unfold pyStrip pyLower
  rw [dropWhile_map_comm isPySpace_pyLowerChar, ← List.map_reverse,
    dropWhile_map_comm isPySpace_pyLowerChar, ← List.map_reverse]

lemma dictSet_idem {V : Type} (d : List (PyStr × V)) (k : PyStr) (v : V) :
    dictSet (dictSet d k v) k v = dictSet d k v := by
  induction d with
  | nil => simp [dictSet]
  | cons kv rest ih =>
    obtain ⟨k0, v0⟩ := kv
    by_cases h : k0 = k
    · subst h; simp [dictSet]
    · simp [dictSet, h, ih]

lemma dictLookup_dictSet {V : Type} (d : List (PyStr × V)) (k : PyStr) (v : V) :
    dictLookup (dictSet d k v) k = some v := by
  induction d with
  | nil => simp [dictSet, dictLookup]
  | cons kv rest ih =>
    obtain ⟨k0, v0⟩ := kv
    by_cases h : k0 = k
    · subst h; simp [dictSet, dictLookup]
    · simp [dictSet, dictLookup, h, ih]

lemma mem_concatMap {α β : Type} {f : α → List β} {x : β} {l : List α} :
    x ∈ concatMap f l ↔ ∃ a ∈ l, x ∈ f a := by
  induction l with
  | nil => simp [concatMap]
  | cons a as ih => simp [concatMap, ih]

lemma pySetAdd_mem (l : List PyStr) (x : PyStr) : x ∈ pySetAdd l x := by
  by_cases h : x ∈ l <;> simp [pySetAdd, h]

lemma pySetAdd_idem (l : List PyStr) (x : PyStr) :
    pySetAdd (pySetAdd l x) x = pySetAdd l x := by
  rw [show pySetAdd (pySetAdd l x) x =
    if x ∈ pySetAdd l x then pySetAdd l x else pySetAdd l x ++ [x] from rfl,
    if_pos (pySetAdd_mem l x)]

lemma pySetAdd_nodup {l : List PyStr} {x : PyStr} (h : l.Nodup) :
    (pySetAdd l x).Nodup := by
  by_cases hm : x ∈ l
  · simpa [pySetAdd, hm] using h
  · rw [pySetAdd, if_neg hm]
    refine List.nodup_append.2 ⟨h, List.nodup_singleton x, ?_⟩
    intro a ha hax
    simp only [List.mem_singleton] at hax
    subst hax
    exact hm ha

/-! ## Lemmas about the extraction and turn-loop functions -/

lemma any_eq_false_forall {α : Type} {l : List α} {p : α → Bool}
    (h : l.any p = false) : ∀ x ∈ l, p x = false := by
  intro x hx
  cases hpx : p x
  · rfl
  · have h2 := List.any_eq_true.2 ⟨x, hx, hpx⟩
    rw [h] at h2
    cases h2

lemma updateMapConnections_idem (m : List (PyStr × List PyStr)) (go loc : PyStr) :
    updateMapConnections (updateMapConnections m go loc) go loc
      = updateMapConnections m go loc := by
  unfold updateMapConnections
  by_cases h : (_extract_connections go).isEmpty
  · simp [h]
  · simp [h, dictSet_idem]

lemma recordLocationStage_facts (s : Store) (go : PyStr) :
    (recordLocationStage s go).learned_facts = s.learned_facts := by
  unfold recordLocationStage
  rcases _extract_location go with _ | location
  · rfl
  · by_cases h : location.isEmpty <;> simp [h, recordLocation]

lemma recordItemsStage_facts (s : Store) (go : PyStr) :
    (recordItemsStage s go).learned_facts = s.learned_facts := by
  unfold recordItemsStage
  split
  · induction _extract_items go generalizing s with
    | nil => rfl
    | cons a as ih => simpa using ih _
  · rfl

lemma recordPuzzleStage_facts (s : Store) (go resp : PyStr) :
    (recordPuzzleStage s go resp).learned_facts = s.learned_facts := by
  unfold recordPuzzleStage
  split
  · rcases _identify_puzzle go with _ | puzzle <;> rfl
  · rfl

lemma recordFactStage_facts (s : Store) (go cmd resp : PyStr) :
    (recordFactStage s go cmd resp).learned_facts = s.learned_facts ∨
    ∃ f, (recordFactStage s go cmd resp).learned_facts = s.learned_facts ++ [f] := by
  unfold recordFactStage
  by_cases hp : important_patterns.any (fun p => containsSub p go) = true
  · rw [if_pos hp]
    cases hfact : _extract_fact go cmd resp with
    | none => exact Or.inl rfl
    | some fact =>
      dsimp only
      by_cases he : fact.isEmpty = true
      · rw [if_pos he]
        exact Or.inl rfl
      · rw [if_neg he]
        exact Or.inr ⟨fact, rfl⟩
  · rw [if_neg hp]
    exact Or.inl rfl

lemma runTurnExchange_strip_ne (transport : Nat → PyStr → PyStr)
    (saveGame : Nat → PyStr) (autoSave : Bool) (turn : Nat) (command : PyStr) :
    pyStrip (runTurnExchange transport saveGame autoSave turn command) ≠ [] := by
  have hgo3 : ∀ g : PyStr,
      pyStrip (if (pyStrip g).isEmpty then placeholderResponse else g) ≠ [] := by
    intro g
    by_cases h : (pyStrip g).isEmpty
    · rw [if_pos h]; decide
    · rw [if_neg h]
      intro hn
      exact h (by simp [hn])
  simp only [runTurnExchange]
  by_cases hauto : (autoSave && decide (turn % 10 = 0)) = true
  · rw [if_pos hauto]
    by_cases hns : (pyStrip (saveGame turn)).isEmpty = true
    · rw [if_pos hns]
      exact hgo3 _
    · rw [if_neg hns, pyStrip_idem]
      intro hn
      exact hns (by simp [hn])
  · rw [if_neg hauto]
    exact hgo3 _

lemma playLoop_all_strip (agent transport : Nat → PyStr → PyStr)
    (saveGame : Nat → PyStr) (autoSave : Bool) (max_turns : Nat) :
    ∀ (turnsLeft turn : Nat) (go : PyStr), pyStrip go ≠ [] →
      ∀ x ∈ playLoop agent transport saveGame autoSave max_turns turn turnsLeft go,
        pyStrip x ≠ [] := by
  intro tl
  induction tl with
  | zero =>
    intro turn go hgo x hx
    simp [playLoop] at hx
  | succ n ih =>
    intro turn go hgo x hx
    rw [playLoop] at hx
    rcases hq : quitPolicy (agent turn go) go turn max_turns with _ | c
    · rw [hq] at hx
      simp only [List.mem_singleton] at hx
      subst hx
      exact hgo
    · rw [hq] at hx
      simp only [List.mem_cons] at hx
      rcases hx with rfl | hx
      · exact hgo
      · exact ih (turn + 1) _ (runTurnExchange_strip_ne _ _ _ _ _) x hx

lemma lineConnectionsOf_subset (line : PyStr) :
    ∀ x ∈ lineConnectionsOf line, x ∈ tenDirections := by
  intro x hx
  unfold lineConnectionsOf at hx
  split at hx
  · exact (List.mem_filter.mp hx).1
  · split at hx
    · split at hx
      · simp only [List.mem_singleton] at hx; subst hx; decide
      · split at hx
        · simp only [List.mem_singleton] at hx; subst hx; decide
        · split at hx
          · simp only [List.mem_singleton] at hx; subst hx; decide
          · split at hx
            · simp only [List.mem_singleton] at hx; subst hx; decide
            · split at hx
              · simp only [List.mem_singleton] at hx; subst hx; decide
              · split at hx
                · simp only [List.mem_singleton] at hx; subst hx; decide
                · simp at hx
    · simp at hx

lemma lineConnectionsOf_passage (line : PyStr)
    (hnodir : tenDirections.any (fun d => containsSub d line) = false)
    (hkey : passageKeywords.any (fun k => containsSub k line) = true) :
    lineConnectionsOf line = (firstAbbrevDir line).toList ∧
      (firstAbbrevDir line).isSome = true := by
  have hno := any_eq_false_forall hnodir
  have hN := hno (str "north") (by decide)
  have hS := hno (str "south") (by decide)
  have hE := hno (str "east") (by decide)
  have hW := hno (str "west") (by decide)
  have hU := hno (str "up") (by decide)
  have hD := hno (str "down") (by decide)
  have hletter : containsSub (str "n") line = true ∨ containsSub (str "s") line = true ∨
      containsSub (str "e") line = true ∨ containsSub (str "w") line = true ∨
      containsSub (str "u") line = true ∨ containsSub (str "d") line = true := by
    obtain ⟨k, hkmem, hkc⟩ := List.any_eq_true.1 hkey
    fin_cases hkmem
    · exact Or.inr (Or.inr (Or.inr (Or.inr (Or.inr (containsSub_trans (by decide) hkc)))))
    · exact Or.inr (Or.inl (containsSub_trans (by decide) hkc))
    · exact Or.inr (Or.inl (containsSub_trans (by decide) hkc))
    · exact Or.inr (Or.inr (Or.inl (containsSub_trans (by decide) hkc)))
    · exact Or.inl (containsSub_trans (by decide) hkc)
  by_cases c1 : containsSub (str "n") line = true
  · simp [lineConnectionsOf, firstAbbrevDir, hnodir, hkey, hN, c1]
  · simp only [Bool.not_eq_true] at c1
    by_cases c2 : containsSub (str "s") line = true
    · simp [lineConnectionsOf, firstAbbrevDir, hnodir, hkey, hN, hS, c1, c2]
    · simp only [Bool.not_eq_true] at c2
      by_cases c3 : containsSub (str "e") line = true
      · simp [lineConnectionsOf, firstAbbrevDir, hnodir, hkey, hN, hS, hE, c1, c2, c3]
      · simp only [Bool.not_eq_true] at c3
        by_cases c4 : containsSub (str "w") line = true
        · simp [lineConnectionsOf, firstAbbrevDir, hnodir, hkey, hN, hS, hE, hW, c1, c2, c3, c4]
        · simp only [Bool.not_eq_true] at c4
          by_cases c5 : containsSub (str "u") line = true
          · simp [lineConnectionsOf, firstAbbrevDir, hnodir, hkey, hN, hS, hE, hW, hU,
              c1, c2, c3, c4, c5]
          · simp only [Bool.not_eq_true] at c5
            by_cases c6 : containsSub (str "d") line = true
            · simp [lineConnectionsOf, firstAbbrevDir, hnodir, hkey, hN, hS, hE, hW, hU, hD,
                c1, c2, c3, c4, c5, c6]
            · simp only [Bool.not_eq_true] at c6
              rcases hletter with h | h | h | h | h | h <;>
                first
                | (rw [c1] at h; cases h)
                | (rw [c2] at h; cases h)
                | (rw [c3] at h; cases h)
                | (rw [c4] at h; cases h)
                | (rw [c5] at h; cases h)
                | (rw [c6] at h; cases h)

/-! ## The claims -/

/-- C1 (counterexample): the claim quantifies over every raw output
containing an upper-case (≤3 words) line immediately followed by a line
containing `Score:`, but the scan returns at its first match: here the
earlier echoed command `GO NORTH` followed by the non-`Score:` line
`kitchen` triggers the fallback, so the extractor returns `kitchen` even
though the qualifying pair `LOOK` / `West of House Score: 0 Moves: 1` is
present and the claim demands `West of House`. -/
theorem extract_location_cex :
    _extract_location (str "GO NORTH\nkitchen\nLOOK\nWest of House Score: 0 Moves: 1")
      = some (str "kitchen") ∧
    pyIsUpper (pyStrip (str "LOOK")) = true ∧
    (pySplitWS (pyStrip (str "LOOK"))).length ≤ 3 ∧
    containsSub scoreMarker (pyStrip (str "West of House Score: 0 Moves: 1")) = true ∧
    some (str "kitchen") ≠ some (str "West of House") :=
  ⟨by decide, by decide, by decide, by decide, by decide⟩

/-- C1 (amended): when the upper-case echoed-command line (≤3 words) and its
`Score:` line are the first two lines of the raw output, `_extract_location`
returns exactly the trimmed substring of the second line preceding
`Score:`. -/
theorem extract_location_amended (game_output l1 l2 : PyStr) (rest : List PyStr)
    (hsplit : splitOnNl game_output = l1 :: l2 :: rest)
    (h1 : pyIsUpper (pyStrip l1) = true)
    (h2 : (pySplitWS (pyStrip l1)).length ≤ 3)
    (h3 : containsSub scoreMarker (pyStrip l2) = true) :
    _extract_location game_output = some (pyStrip (beforeSub scoreMarker (pyStrip l2))) := by
  unfold _extract_location
  rw [hsplit]
  simp [extractLocationLines, h1, h2, h3]

/-- C1 (witness): the amended theorem at the claim's own example. -/
theorem extract_location_amended_witness :
    _extract_location (str "GO NORTH\nWest of House Score: 0 Moves: 1")
      = some (str "West of House") := by
  have h := extract_location_amended (str "GO NORTH\nWest of House Score: 0 Moves: 1")
    (str "GO NORTH") (str "West of House Score: 0 Moves: 1") []
    (by decide) (by decide) (by decide) (by decide)
  rw [h]
  decide

/-- C2 (counterexample): the claim says a QUIT command is forwarded to the
game process when the turn index has reached the maximum; in the code an
honored quit `break`s the loop before any send, so nothing is forwarded. -/
theorem quit_policy_cex :
    quitPolicy (str "QUIT") (str "") 50 50 = TurnAction.endSession ∧
    sentCommand (quitPolicy (str "QUIT") (str "") 50 50) ≠ some (str "QUIT") :=
  ⟨by decide, by decide⟩

/-- C2 (amended): a command case-insensitively equal to QUIT/Q ends the
session (with no command forwarded to the game process) iff the turn index
has reached the configured maximum or the most recent game output contains
the death/ghost signature; otherwise the command actually sent to the
transport is the fallback LOOK and play continues; a non-quit command is
sent unchanged. -/
theorem quit_policy_amended (command game_output : PyStr) (turn max_turns : Nat) :
    (quitPolicy command game_output turn max_turns = TurnAction.endSession ↔
      (isQuitCommand command = true ∧
        (turn ≥ max_turns ∨ isDeadOutput game_output = true))) ∧
    (isQuitCommand command = true → turn < max_turns → isDeadOutput game_output = false →
      quitPolicy command game_output turn max_turns = TurnAction.send (str "LOOK")) ∧
    (isQuitCommand command = false →
      quitPolicy command game_output turn max_turns = TurnAction.send command) := by
  unfold quitPolicy
  by_cases hq : isQuitCommand command = true
  · rw [if_pos hq]
    by_cases hcond : (decide (turn ≥ max_turns) || isDeadOutput game_output) = true
    · rw [if_pos hcond]
      have hor : turn ≥ max_turns ∨ isDeadOutput game_output = true := by
        simpa using hcond
      refine ⟨⟨fun _ => ⟨hq, hor⟩, fun _ => rfl⟩, ?_, ?_⟩
      · intro _ hlt hdead
        exfalso
        rcases hor with h | h
        · omega
        · rw [hdead] at h; cases h
      · intro hqf
        rw [hq] at hqf; cases hqf
    · rw [if_neg hcond]
      have hnor : ¬ (turn ≥ max_turns ∨ isDeadOutput game_output = true) := by
        intro hor
        apply hcond
        rcases hor with h | h
        · simp [h]
        · simp [h]
      refine ⟨⟨fun heq => TurnAction.noConfusion heq,
          fun hand => absurd hand.2 hnor⟩, fun _ _ _ => rfl, ?_⟩
      intro hqf
      rw [hq] at hqf; cases hqf
  · rw [if_neg hq]
    have hqf : isQuitCommand command = false := by
      cases h : isQuitCommand command
      · rfl
      · exact absurd h hq
    refine ⟨⟨fun heq => TurnAction.noConfusion heq, fun hand => ?_⟩, ?_, fun _ => rfl⟩
    · rw [hqf] at hand; cases hand.1
    · intro hQ _ _
      rw [hqf] at hQ; cases hQ

/-- C2 (witness): a premature lower-case quit on a live session is replaced
by LOOK. -/
theorem quit_policy_amended_witness :
    quitPolicy (str "quit") (str "You see a small mailbox.") 3 50
      = TurnAction.send (str "LOOK") :=
  (quit_policy_amended (str "quit") (str "You see a small mailbox.") 3 50).2.1
    (by decide) (by decide) (by decide)

/-- C3 (counterexample): appending facts never evicts in memory — after 21
fact-producing `extract_learning` calls the in-memory fact log holds all 21
entries, not only the most recent 20. -/
theorem fact_log_cex :
    ¬ (((List.range 21).foldl
        (fun s _ => extract_learning s (str "You can't do that.") (str "open door")
          (str "You can't do that."))
        emptyStore).learned_facts.length ≤ 20) := by
  decide

/-- C3 (amended): the 20-entry cap applies to the persisted snapshot, not
the in-memory log: whenever more than 20 facts have been appended,
`save_learning` writes exactly the most recent 20, in arrival order (a
suffix of the in-memory log). -/
theorem fact_log_amended (s : Store) (h : 20 < s.learned_facts.length) :
    (save_learning_data s).learned_facts.length = 20 ∧
    (save_learning_data s).learned_facts <:+ s.learned_facts := by
  constructor
  · simp only [save_learning_data, lastN, List.length_drop]
    omega
  · simp only [save_learning_data, lastN]
    exact ⟨s.learned_facts.take (s.learned_facts.length - 20), List.take_append_drop _ _⟩

/-- C3 (witness): the amended theorem on a store holding 21 facts. -/
theorem fact_log_amended_witness :
    (save_learning_data
        { emptyStore with learned_facts := List.replicate 21 (str "f") }).learned_facts.length
      = 20 ∧
    (save_learning_data
        { emptyStore with learned_facts := List.replicate 21 (str "f") }).learned_facts <:+
      ({ emptyStore with learned_facts := List.replicate 21 (str "f") } : Store).learned_facts :=
  fact_log_amended _ (by decide)

/-- C4: saving a Knowledge Store and loading the snapshot into a fresh store
reproduces every collection — location insights, item insights, puzzle
solutions, location map, location short names, visited-location set, current
location — exactly, and the fact log as its most recent 20 entries. -/
theorem snapshot_roundtrip (s : Store) :
    (load_learning (save_learning_data s) emptyStore).location_insights
      = s.location_insights ∧
    (load_learning (save_learning_data s) emptyStore).item_insights = s.item_insights ∧
    (load_learning (save_learning_data s) emptyStore).puzzle_solutions
      = s.puzzle_solutions ∧
    (load_learning (save_learning_data s) emptyStore).location_map = s.location_map ∧
    (load_learning (save_learning_data s) emptyStore).location_names = s.location_names ∧
    (load_learning (save_learning_data s) emptyStore).visited_locations
      = s.visited_locations ∧
    (load_learning (save_learning_data s) emptyStore).current_location
      = s.current_location ∧
    (load_learning (save_learning_data s) emptyStore).learned_facts
      = lastN 20 s.learned_facts :=
  ⟨rfl, rfl, rfl, rfl, rfl, rfl, rfl, rfl⟩

/-- C5 (counterexample): the first turn's gateway input is the initial game
output unfiltered, so an empty initial output reaches `get_ai_command`
(the source explicitly anticipates short/empty initial output and
continues). -/
theorem gateway_nonempty_cex :
    gatewayInputs (fun _ _ => str "WAIT") (fun _ _ => str "ok") (fun _ => str "")
      false 1 (str "") = [str ""] ∧
    pyStrip (str "") = [] :=
  ⟨by decide, by decide⟩

/-- C5 (amended): on every turn after the first, the game-output string
handed to `get_ai_command` is never empty or whitespace-only — an
empty/whitespace-only transport response is replaced by the fixed
placeholder before the next gateway call; the first turn's input (the
initial output) is not subject to the policy. -/
theorem gateway_nonempty_amended (agent transport : Nat → PyStr → PyStr)
    (saveGame : Nat → PyStr) (autoSave : Bool) (max_turns : Nat) (initial : PyStr) :
    ∀ x ∈ (gatewayInputs agent transport saveGame autoSave max_turns initial).tail,
      pyStrip x ≠ [] := by
  intro x hx
  unfold gatewayInputs at hx
  cases max_turns with
  | zero => simp [playLoop] at hx
  | succ n =>
    rw [playLoop] at hx
    rcases hq : quitPolicy (agent 1 initial) initial 1 (n + 1) with _ | c
    · rw [hq] at hx
      simp at hx
    · rw [hq] at hx
      rw [List.tail_cons] at hx
      exact playLoop_all_strip agent transport saveGame autoSave (n + 1) n 2 _
        (runTurnExchange_strip_ne _ _ _ _ _) x hx

/-- C5 (witness): the amended theorem on a concrete two-turn session. -/
theorem gateway_nonempty_amended_witness :
    pyStrip (str "ok") ≠ [] :=
  gateway_nonempty_amended (fun _ _ => str "WAIT") (fun _ _ => str "ok")
    (fun _ => str "") false 2 (str "hi") (str "ok") (by decide)

/-- C6: recording the same extraction twice for the same location is
idempotent on the location collections — the second record changes nothing
at all, the visited set contains the location (exactly once: it stays
duplicate-free), and the stored description snippets number at most 3. -/
theorem record_location_idempotent (s : Store) (game_output location : PyStr) :
    recordLocation (recordLocation s game_output location) game_output location
      = recordLocation s game_output location ∧
    location ∈ (recordLocation s game_output location).visited_locations ∧
    (s.visited_locations.Nodup →
      (recordLocation s game_output location).visited_locations.Nodup) ∧
    dictLookup (recordLocation s game_output location).location_insights location
      = some (_summarize_location game_output) ∧
    (_summarize_location game_output).length ≤ 3 := by
  refine ⟨?_, ?_, ?_, ?_, ?_⟩
  · simp only [recordLocation]
    simp [updateMapConnections_idem, pySetAdd_idem, dictSet_idem]
  · simp only [recordLocation]
    exact pySetAdd_mem _ _
  · intro h
    simp only [recordLocation]
    exact pySetAdd_nodup h
  · simp only [recordLocation]
    exact dictLookup_dictSet _ _ _
  · simp only [_summarize_location]
    simp [List.length_take]

/-- C6 (witness): the idempotence and set-semantics facts at a concrete
store and extraction. -/
theorem record_location_idempotent_witness :
    recordLocation
        (recordLocation emptyStore (str "A wooden door faces north.") (str "Kitchen"))
        (str "A wooden door faces north.") (str "Kitchen")
      = recordLocation emptyStore (str "A wooden door faces north.") (str "Kitchen") ∧
    (recordLocation emptyStore (str "A wooden door faces north.")
        (str "Kitchen")).visited_locations.Nodup :=
  ⟨(record_location_idempotent emptyStore (str "A wooden door faces north.")
      (str "Kitchen")).1,
   (record_location_idempotent emptyStore (str "A wooden door faces north.")
      (str "Kitchen")).2.2.1 (by decide)⟩

/-- C7: on every network failure of the Ollama generation request,
`_get_ollama_command` does not propagate the error: it returns the fixed
safe fallback command LOOK (leaving the conversation history unchanged), so
the turn loop continues. -/
theorem ollama_fallback (history : List Msg) :
    (_get_ollama_command history OllamaOutcome.requestError).1 = str "LOOK" ∧
    (_get_ollama_command history OllamaOutcome.requestError).2 = history :=
  ⟨rfl, rfl⟩

/-- C8: `_extract_connections` returns a duplicate-free list drawn only from
the ten direction words, containing every direction word that occurs
case-insensitively as a substring of some line of the input. -/
theorem extract_connections_spec (game_output : PyStr) :
    (_extract_connections game_output).Nodup ∧
    (∀ x ∈ _extract_connections game_output, x ∈ tenDirections) ∧
    (∀ d ∈ tenDirections, ∀ line ∈ splitOnNl game_output,
      containsSub d (pyLower line) = true → d ∈ _extract_connections game_output) := by
  refine ⟨?_, ?_, ?_⟩
  · unfold _extract_connections
    exact List.nodup_dedup _
  · intro x hx
    unfold _extract_connections at hx
    rw [List.mem_dedup] at hx
    obtain ⟨rawLine, _, hmem⟩ := mem_concatMap.1 hx
    exact lineConnectionsOf_subset _ x hmem
  · intro d hd line hline hocc
    have hchar : d ≠ [] ∧ ∀ c ∈ d, isPySpace c = false := by
      fin_cases hd <;> exact ⟨by decide, by decide⟩
    have h2 : containsSub d (pyStrip (pyLower line)) = true :=
      containsSub_pyStrip hchar.1 hchar.2 hocc
    have h3 : containsSub d (pyLower (pyStrip line)) = true := by
      rw [pyLower_pyStrip]; exact h2
    unfold _extract_connections
    rw [List.mem_dedup, mem_concatMap]
    refine ⟨line, hline, ?_⟩
    unfold lineConnections lineConnectionsOf
    have hany : tenDirections.any (fun d0 => containsSub d0 (pyLower (pyStrip line))) = true :=
      List.any_eq_true.2 ⟨d, hd, h3⟩
    rw [if_pos hany]
    exact List.mem_filter.2 ⟨hd, h3⟩

/-- C8 (witness): a line mentioning `north` puts `north` in the result. -/
theorem extract_connections_spec_witness :
    (str "north") ∈ _extract_connections (str "There is a path north.") :=
  (extract_connections_spec (str "There is a path north.")).2.2 (str "north") (by decide)
    (str "There is a path north.") (by decide) (by decide)

/-- C9: one `extract_learning` call appends at most one new entry to the
fact log and never removes or modifies existing entries: the old log is a
prefix of the new one, whose length grows by at most 1. -/
theorem extract_learning_one_fact (s : Store) (game_output command response : PyStr) :
    s.learned_facts <+: (extract_learning s game_output command response).learned_facts ∧
    (extract_learning s game_output command response).learned_facts.length
      ≤ s.learned_facts.length + 1 := by
  unfold extract_learning
  rcases recordFactStage_facts
      (recordPuzzleStage (recordItemsStage (recordLocationStage s game_output) game_output)
        game_output response) game_output command response with h | ⟨f, h⟩
  · rw [h, recordPuzzleStage_facts, recordItemsStage_facts, recordLocationStage_facts]
    exact ⟨⟨[], List.append_nil _⟩, by omega⟩
  · rw [h, recordPuzzleStage_facts, recordItemsStage_facts, recordLocationStage_facts]
    exact ⟨⟨[f], rfl⟩, by simp⟩

/-- C10: a line containing a passage keyword (door/passage/staircase/
ladder/tunnel) but no full direction word contributes exactly one
direction: the first of north, south, east, west, up, down whose
single-letter abbreviation occurs anywhere in the lower-cased line — in
particular such a line containing `tunnel` always yields `north`. -/
theorem passage_heuristic (rawLine : PyStr)
    (hkey : passageKeywords.any (fun k => containsSub k (pyLower (pyStrip rawLine))) = true)
    (hnodir : tenDirections.any (fun d => containsSub d (pyLower (pyStrip rawLine))) = false) :
    lineConnections rawLine = (firstAbbrevDir (pyLower (pyStrip rawLine))).toList ∧
    (firstAbbrevDir (pyLower (pyStrip rawLine))).isSome = true ∧
    (containsSub (str "tunnel") (pyLower (pyStrip rawLine)) = true →
      lineConnections rawLine = [str "north"]) := by
  have h := lineConnectionsOf_passage (pyLower (pyStrip rawLine)) hnodir hkey
  refine ⟨h.1, h.2, ?_⟩
  intro htun
  have hn1 : containsSub (str "n") (pyLower (pyStrip rawLine)) = true :=
    containsSub_trans (by decide) htun
  have hN : containsSub (str "north") (pyLower (pyStrip rawLine)) = false :=
    any_eq_false_forall hnodir (str "north") (by decide)
  show lineConnectionsOf (pyLower (pyStrip rawLine)) = [str "north"]
  simp [lineConnectionsOf, hnodir, hkey, hN, hn1]

/-- C10 (witness): the line `tunnel` yields exactly `north`. -/
theorem passage_heuristic_witness :
    lineConnections (str "tunnel") = [str "north"] :=
  (passage_heuristic (str "tunnel") (by decide) (by decide)).2.2 (by decide)
